import Mathlib

/-! gometar: wind and visibility group decoders.

A shallow embedding of `wind/parser/parser.go` (the wind-group decoder built on
a Go regular expression), of the data model of `metar/metar.go`, and of the
visibility decoder exercised by `visibility/parser/parser_test.go`.

Go strings are modelled as lists of characters.  Every literal and class of the
wind pattern is ASCII, and an ASCII byte never occurs inside a multi-byte UTF-8
sequence, so matching character by character agrees with Go matching on bytes.
-/

namespace Gometar

/-- A Go `string`. -/
abbrev GoString := List Char

/-! ## Regular expressions with capture groups (the fragment `regexp` is used on) -/

/-- Abstract syntax of the regular-expression fragment that the wind pattern uses. -/
inductive Re where
  | eps
  | lit (c : Char)
  | digit
  | seq (a b : Re)
  | alt (a b : Re)
  | opt (a : Re)
  | cap (i : Nat) (a : Re)
  deriving Repr, DecidableEq

/-- The counted repetition `a{n}`. -/
def Re.rep : Nat → Re → Re
  | 0, _ => Re.eps
  | n + 1, a => Re.seq a (Re.rep n a)

/-- A literal string. -/
def Re.str : List Char → Re
  | [] => Re.eps
  | c :: cs => Re.seq (Re.lit c) (Re.str cs)

/-- State of a match in progress: the input still to be read and the text of
each capture group so far (the empty string for a group that did not take part). -/
structure MState where
  rest : GoString
  caps : List GoString
  deriving Repr, DecidableEq

/-- The text read between two states of the same match. -/
def consumed (before after : GoString) : GoString :=
  before.take (before.length - after.length)

/-- All ways of matching `r` at the start of the remaining input, in the order a
backtracking matcher tries them (leftmost-first: the first alternative before the
second, taking an optional item before skipping it). -/
def Re.run : Re → MState → List MState
  | Re.eps, s => [s]
  | Re.lit c, s =>
    match s.rest with
    | [] => []
    | x :: xs => if x = c then [{ s with rest := xs }] else []
  | Re.digit, s =>
    match s.rest with
    | [] => []
    | x :: xs => if x.isDigit then [{ s with rest := xs }] else []
  | Re.seq a b, s => (Re.run a s).flatMap (Re.run b)
  | Re.alt a b, s => Re.run a s ++ Re.run b s
  | Re.opt a, s => Re.run a s ++ [s]
  | Re.cap i a, s =>
    (Re.run a s).map (fun t => { t with caps := t.caps.set i (consumed s.rest t.rest) })

/-- The preferred match of `re` starting exactly at the head of `input`, as the
list of submatches (index 0 is the whole match); `n` is the number of groups. -/
def matchHere (re : Re) (n : Nat) (input : GoString) : Option (List GoString) :=
  ((Re.run (Re.cap 0 re) { rest := input, caps := List.replicate (n + 1) [] }).head?).map
    MState.caps

/-- Go `(*Regexp).FindStringSubmatch`: the submatches of the leftmost match, or
the nil slice (the empty list) when the pattern matches nowhere. -/
def FindStringSubmatch (re : Re) (n : Nat) : GoString → List GoString
  | [] => (matchHere re n []).getD []
  | c :: cs =>
    match matchHere re n (c :: cs) with
    | some m => m
    | none => FindStringSubmatch re n cs

/-! ## `strconv.Atoi` -/

/-- The errors of `strconv.Atoi`. -/
inductive NumError where
  | ErrSyntax
  | ErrRange
  deriving Repr, DecidableEq

/-- The digit loop of `strconv.ParseUint` in base 10 and 64 bits: a character
that is not a decimal digit is a syntax error, and the value leaving the range of
`uint64` is a range error, reported at the digit where it happens. -/
def digitsValue : GoString → Nat → Except NumError Nat
  | [], acc => Except.ok acc
  | c :: cs, acc =>
    if c.isDigit then
      if 2 ^ 64 ≤ acc * 10 + (c.toNat - 48) then Except.error NumError.ErrRange
      else digitsValue cs (acc * 10 + (c.toNat - 48))
    else Except.error NumError.ErrSyntax

/-- The digits of a numeral: the text after a leading sign, if there is one. -/
def stripSign : GoString → GoString
  | '-' :: t => t
  | '+' :: t => t
  | s => s

/-- Whether a numeral starts with a minus sign. -/
def hasMinus : GoString → Bool
  | '-' :: _ => true
  | _ => false

/-- Go `strconv.Atoi` on a 64-bit platform: an optional sign followed by one or
more decimal digits, within the range of `int`. -/
def Atoi (s : GoString) : Except NumError Int :=
  if stripSign s = [] then Except.error NumError.ErrSyntax
  else
    match digitsValue (stripSign s) 0 with
    | Except.error err => Except.error err
    | Except.ok v =>
      let n : Int := if hasMinus s then -(v : Int) else (v : Int)
      if n < -(2 : Int) ^ 63 ∨ (2 : Int) ^ 63 - 1 < n then Except.error NumError.ErrRange
      else Except.ok n

/-! ## Data model (`metar/metar.go`) -/

/-- The enumeration `SpeedUnit`. -/
inductive SpeedUnit where
  | SpeedUnitKnots
  | SpeedUnitMetersPerSecond
  deriving Repr, DecidableEq

/-- Numeric value of a `SpeedUnit` constant (`iota`). -/
def SpeedUnit.toInt : SpeedUnit → Int
  | SpeedUnit.SpeedUnitKnots => 0
  | SpeedUnit.SpeedUnitMetersPerSecond => 1

/-- The `Speed` member of the wind record. -/
structure WindSpeed where
  Speed : Int
  Unit : SpeedUnit
  deriving Repr, DecidableEq

/-- Modelled from the spec: the declaration of `wind.Group`, whose package is not
among the sources.  Its fields are those of the wind record of the spec and of
`Report.Wind` in `metar/metar.go`; `Parse` names `Variable` and `Source`. -/
structure Group where
  Variable : Bool
  Source : Int
  VarianceFrom : Int
  VarianceTo : Int
  Speed : WindSpeed
  Gust : Int
  deriving Repr, DecidableEq

/-- The zero value `wind.Group{}`. -/
def Group.zero : Group :=
  { Variable := false, Source := 0, VarianceFrom := 0, VarianceTo := 0,
    Speed := { Speed := 0, Unit := SpeedUnit.SpeedUnitKnots }, Gust := 0 }

/-! ## The wind parser (`wind/parser/parser.go`) -/

/-- The piece `(?P<source>VRB|[0-9]{3})`, group 1. -/
def sourceGroup : Re :=
  Re.cap 1 (Re.alt (Re.str ['V', 'R', 'B']) (Re.rep 3 Re.digit))

/-- The piece `(?P<gust>[0-9]{2}G)?`, group 2. -/
def gustGroup : Re :=
  Re.opt (Re.cap 2 (Re.seq (Re.rep 2 Re.digit) (Re.lit 'G')))

/-- The piece `(?P<speed>[0-9]{2})`, group 3. -/
def speedGroup : Re :=
  Re.cap 3 (Re.rep 2 Re.digit)

/-- The piece `(?P<unit>KT|MPS)`, group 4. -/
def unitGroup : Re :=
  Re.cap 4 (Re.alt (Re.str ['K', 'T']) (Re.str ['M', 'P', 'S']))

/-- The pieces `( `, `(?P<varifrom>[0-9]{3})V(?P<varito>[0-9]{3})`, `)?`: the
unnamed group 5 holding groups 6 and 7. -/
def varianceGroup : Re :=
  Re.opt (Re.cap 5 (Re.seq (Re.lit ' ')
    (Re.seq (Re.cap 6 (Re.rep 3 Re.digit))
    (Re.seq (Re.lit 'V') (Re.cap 7 (Re.rep 3 Re.digit))))))

/-- The pattern obtained by joining `groupRegexps`:
`(?P<source>VRB|[0-9]{3})(?P<gust>[0-9]{2}G)?(?P<speed>[0-9]{2})(?P<unit>KT|MPS)`
`( (?P<varifrom>[0-9]{3})V(?P<varito>[0-9]{3}))?`.
Groups are numbered by their opening parenthesis: 1 source, 2 gust, 3 speed,
4 unit, 5 the unnamed group, 6 varifrom, 7 varito. -/
def groupRegexp : Re :=
  Re.seq sourceGroup (Re.seq gustGroup (Re.seq speedGroup (Re.seq unitGroup varianceGroup)))

/-- Number of capture groups of `groupRegexp`. -/
def numSubexp : Nat := 7

/-- The parser `WParser`: it holds the compiled pattern and nothing else. -/
structure WParser where
  groupRegexp : Re
  deriving Repr, DecidableEq

/-- The constructor `New`. -/
def New : WParser := { groupRegexp := groupRegexp }

/-- What a call of `Parse` does: it returns a group and an error value (`none`
is Go `nil`), or it panics. -/
inductive Outcome where
  | returned (g : Group) (err : Option NumError)
  | panicked
  deriving Repr, DecidableEq

/-- The method `(w *WParser) Parse`.  `matches[1]` on a slice shorter than two
elements is an index-out-of-range panic. -/
def WParser.Parse (w : WParser) (input : GoString) : Outcome :=
  let submatches := FindStringSubmatch w.groupRegexp numSubexp input
  match submatches[1]? with
  | none => Outcome.panicked
  | some m1 =>
    let variable_ : Bool := if m1 = ['V', 'R', 'B'] then true else false
    if !variable_ then
      match Atoi m1 with
      | Except.error err => Outcome.returned Group.zero (some err)
      | Except.ok sourceInt =>
        Outcome.returned { Group.zero with Variable := variable_, Source := sourceInt } none
    else
      Outcome.returned { Group.zero with Variable := variable_, Source := 0 } none


/-! ## What the matcher computes -/

/-- The words a pattern matches in full, capture groups disregarded. -/
def Re.lang : Re → GoString → Prop
  | Re.eps, w => w = []
  | Re.lit c, w => w = [c]
  | Re.digit, w => ∃ x : Char, x.isDigit = true ∧ w = [x]
  | Re.seq a b, w => ∃ u v, w = u ++ v ∧ Re.lang a u ∧ Re.lang b v
  | Re.alt a b, w => Re.lang a w ∨ Re.lang b w
  | Re.opt a, w => Re.lang a w ∨ w = []
  | Re.cap _ a, w => Re.lang a w

/-- The numbers of the capture groups occurring in a pattern. -/
def Re.groups : Re → List Nat
  | Re.eps => []
  | Re.lit _ => []
  | Re.digit => []
  | Re.seq a b => Re.groups a ++ Re.groups b
  | Re.alt a b => Re.groups a ++ Re.groups b
  | Re.opt a => Re.groups a
  | Re.cap i a => i :: Re.groups a

/-- A string of exactly `n` ASCII decimal digits. -/
def isDigits (n : Nat) (w : GoString) : Prop :=
  w.length = n ∧ ∀ c ∈ w, c.isDigit = true

/-- The texts the wind pattern matches in full: a source (`VRB` or three
digits), optionally two digits and `G`, two digits, `KT` or `MPS`, and optionally
a space and two three-digit numbers separated by `V`. -/
def WindText (w : GoString) : Prop :=
  ∃ src g sp un va, w = src ++ (g ++ (sp ++ (un ++ va))) ∧
    (src = ['V', 'R', 'B'] ∨ isDigits 3 src) ∧
    ((∃ d, isDigits 2 d ∧ g = d ++ ['G']) ∨ g = []) ∧
    isDigits 2 sp ∧
    (un = ['K', 'T'] ∨ un = ['M', 'P', 'S']) ∧
    ((∃ f t, isDigits 3 f ∧ isDigits 3 t ∧ va = ' ' :: (f ++ 'V' :: t)) ∨ va = [])

/-- The number `Atoi` reads from three decimal digits. -/
def value3 (a b c : Char) : Nat :=
  ((a.toNat - 48) * 10 + (b.toNat - 48)) * 10 + (c.toNat - 48)

/-- The pattern after the source group. -/
def afterSource : Re :=
  Re.seq gustGroup (Re.seq speedGroup (Re.seq unitGroup varianceGroup))

/-- The text of `fmt.Sprintf` with the verb `%0wd` (`w` the width) for a number
that is not negative: its decimal digits, padded with zeros on the left. -/
def zeroPad (w : Nat) (n : Nat) : GoString :=
  List.replicate (w - (Nat.toDigits 10 n).length) '0' ++ Nat.toDigits 10 n

/-! ## The visibility parser (exercised by `visibility/parser/parser_test.go`) -/

/-- The enumeration `VisibilityUnit`. -/
inductive VisibilityUnit where
  | UnitStatuteMiles
  | UnitMeters
  deriving Repr, DecidableEq

/-- The enumeration `VisibilityModifier`. -/
inductive VisibilityModifier where
  | VisibilityModifierOrLess
  | VisibilityModifierExactly
  | VisibilityModifierOrMore
  deriving Repr, DecidableEq

namespace Visibility

/-- Modelled from the spec: the record `visibility.Group`, whose declaration is
not among the sources: the distance as text, its unit and its bound modifier. -/
structure Group where
  Distance : GoString
  Unit : VisibilityUnit
  Modifier : VisibilityModifier
  deriving Repr, DecidableEq

/-- The decode fault of a field decoder: the group it could not decode. -/
structure DecodeFault where
  rawGroup : GoString
  deriving Repr, DecidableEq

/-- A group that is purely four decimal digits. -/
def isFourDigits (w : GoString) : Bool :=
  w.length == 4 && w.all Char.isDigit

/-- A group suffixed `SM`. -/
def hasSuffixSM (w : GoString) : Bool :=
  (['S', 'M'] : GoString).isSuffixOf w

/-- The group without its two-character unit suffix. -/
def trimSuffixSM (w : GoString) : GoString :=
  w.take (w.length - 2)

/-- The bound modifier: a leading `M` is or-less, a leading `P` is or-more,
exactly otherwise. -/
def modifierOf : GoString → VisibilityModifier
  | 'M' :: _ => VisibilityModifier.VisibilityModifierOrLess
  | 'P' :: _ => VisibilityModifier.VisibilityModifierOrMore
  | _ => VisibilityModifier.VisibilityModifierExactly

/-- The text after a leading `M` or `P`. -/
def stripModifier : GoString → GoString
  | 'M' :: t => t
  | 'P' :: t => t
  | s => s

/-- Modelled from the spec: the visibility parser's `Parse`, whose source file is
not among the sources (only its test is).  The unit is meters when the group is
purely four digits and statute miles when it is suffixed `SM`; a leading `M` or
`P` is the modifier; the distance is kept as the text that remains, a fraction
included; any other group is a decode fault. -/
def Parse (input : GoString) : Except DecodeFault Group :=
  if isFourDigits input then
    Except.ok { Distance := input, Unit := VisibilityUnit.UnitMeters,
                Modifier := VisibilityModifier.VisibilityModifierExactly }
  else if hasSuffixSM input then
    Except.ok { Distance := stripModifier (trimSuffixSM input),
                Unit := VisibilityUnit.UnitStatuteMiles,
                Modifier := modifierOf input }
  else Except.error { rawGroup := input }

/-- A visibility group `input` written with the distance text `dist`: either the
group is four digits and is the distance itself, or it is the distance text
between an optional `M` or `P` and the suffix `SM`. -/
def Written (input dist : GoString) : Prop :=
  (isDigits 4 input ∧ dist = input) ∨
  (∃ m : GoString, (m = [] ∨ m = ['M'] ∨ m = ['P']) ∧
    dist.head? ≠ some 'M' ∧ dist.head? ≠ some 'P' ∧ input = m ++ dist ++ ['S', 'M'])

end Visibility

/-! ## Named captures and calls of the wind parser -/

/-- The names the wind pattern gives to its capture groups (`?P<name>`). -/
inductive Subexp where
  | source
  | gust
  | speed
  | unit
  | varifrom
  | varito
  deriving Repr, DecidableEq

/-- Go `(*Regexp).SubexpIndex`: the number of the group carrying a name, by the
position of its opening parenthesis in the joined `groupRegexps`. -/
def Subexp.index : Subexp → Nat
  | Subexp.source => 1
  | Subexp.gust => 2
  | Subexp.speed => 3
  | Subexp.unit => 4
  | Subexp.varifrom => 6
  | Subexp.varito => 7

/-- The text bound to a named capture when the wind pattern is matched against
`input`; `none` when the pattern has no match. -/
def namedCapture (name : Subexp) (input : GoString) : Option GoString :=
  (FindStringSubmatch groupRegexp numSubexp input)[name.index]?

/-- The state a program using the package can observe or change: the
package-level variable `groupRegexps` (held joined, as the pattern it spells) and
the `WParser` objects allocated so far.  A `*WParser` is the position of its
object in `parsers`. -/
structure Prog where
  groupRegexps : Re
  parsers : List WParser
  deriving Repr, DecidableEq

/-- The state at program start: `groupRegexps` as initialised, no parser yet. -/
def Prog.init : Prog := { groupRegexps := groupRegexp, parsers := [] }

/-- The function `New` on the program state: it reads `groupRegexps`, compiles the
joined pattern and allocates a `WParser` holding it; it returns the new pointer. -/
def NewCall (st : Prog) : Nat × Prog :=
  (st.parsers.length,
    { st with parsers := st.parsers ++ [{ groupRegexp := st.groupRegexps }] })

/-- The method `Parse` on the program state: it dereferences the receiver, reads
its field `groupRegexp` and runs the body of `Parse`; it writes neither the
receiver nor `groupRegexps`.  A pointer to no parser is a nil dereference. -/
def ParseCall (w : Nat) (input : GoString) (st : Prog) : Outcome × Prog :=
  match st.parsers[w]? with
  | none => (Outcome.panicked, st)
  | some self => (self.Parse input, st)

/-- A call a program can make on the package. -/
inductive Call where
  | new
  | parse (w : Nat) (input : GoString)
  deriving Repr, DecidableEq

/-- The program state after a call, its result dropped. -/
def Call.exec : Call → Prog → Prog
  | Call.new, st => (NewCall st).2
  | Call.parse w input, st => (ParseCall w input st).2

/-- The program state after a history of calls, oldest first. -/
def runCalls : List Call → Prog → Prog
  | [], st => st
  | c :: later, st => runCalls later (c.exec st)

/-! ## Weather and cloud enumerations (`metar/metar.go`) -/

/-- The type `WeatherDescriptor`, an `int`. -/
abbrev WeatherDescriptor := Int

def WeatherDescriptorNone : WeatherDescriptor := 0
def WeatherDescriptorShallow : WeatherDescriptor := 1
def WeatherDescriptorPartial : WeatherDescriptor := 2
def WeatherDescriptorPatches : WeatherDescriptor := 3
def WeatherDescriptorLowDrifting : WeatherDescriptor := 4
def WeatherDescriptorBlowing : WeatherDescriptor := 5
def WeatherDescriptorShowers : WeatherDescriptor := 6
def WeatherDescriptorThunderstorm : WeatherDescriptor := 7
def WeatherDescriptorFreezing : WeatherDescriptor := 8

/-- The constants of `WeatherDescriptor`, in the order of their `const` block. -/
def weatherDescriptorConsts : List WeatherDescriptor :=
  [WeatherDescriptorNone, WeatherDescriptorShallow, WeatherDescriptorPartial,
   WeatherDescriptorPatches, WeatherDescriptorLowDrifting, WeatherDescriptorBlowing,
   WeatherDescriptorShowers, WeatherDescriptorThunderstorm, WeatherDescriptorFreezing]

/-- The type `WeatherPrecipitation`, an `int`. -/
abbrev WeatherPrecipitation := Int

def WeatherPrecipitationNone : WeatherPrecipitation := 0
def WeatherPrecipitationDrizzle : WeatherPrecipitation := 1
def WeatherPrecipitationRain : WeatherPrecipitation := 2
def WeatherPrecipitationSnow : WeatherPrecipitation := 3
def WeatherPrecipitationSnowGrains : WeatherPrecipitation := 4
def WeatherPrecipitationIceCrystals : WeatherPrecipitation := 5
def WeatherPrecipitationIcePellets : WeatherPrecipitation := 6
def WeatherPrecipitationHail : WeatherPrecipitation := 7
def WeatherPrecipitationSmallHailandOrSnowPellets : WeatherPrecipitation := 8
def WeatherPrecipitationUnknownPrecipitation : WeatherPrecipitation := 9

/-- The constants of `WeatherPrecipitation`, in the order of their `const` block. -/
def weatherPrecipitationConsts : List WeatherPrecipitation :=
  [WeatherPrecipitationNone, WeatherPrecipitationDrizzle, WeatherPrecipitationRain,
   WeatherPrecipitationSnow, WeatherPrecipitationSnowGrains, WeatherPrecipitationIceCrystals,
   WeatherPrecipitationIcePellets, WeatherPrecipitationHail,
   WeatherPrecipitationSmallHailandOrSnowPellets, WeatherPrecipitationUnknownPrecipitation]

/-- The type `WeatherObscuration`, an `int`. -/
abbrev WeatherObscuration := Int

def WeatherObscurationNone : WeatherObscuration := 0
def WeatherObscurationMist : WeatherObscuration := 1
def WeatherObscurationFog : WeatherObscuration := 2
def WeatherObscurationSmoke : WeatherObscuration := 3
def WeatherObscurationVolcanicAsh : WeatherObscuration := 4
def WeatherObscurationWidespreadDust : WeatherObscuration := 5
def WeatherObscurationSand : WeatherObscuration := 6
def WeatherObscurationHaze : WeatherObscuration := 7
def WeatherObscurationSpray : WeatherObscuration := 8

/-- The constants of `WeatherObscuration`, in the order of their `const` block. -/
def weatherObscurationConsts : List WeatherObscuration :=
  [WeatherObscurationNone, WeatherObscurationMist, WeatherObscurationFog,
   WeatherObscurationSmoke, WeatherObscurationVolcanicAsh, WeatherObscurationWidespreadDust,
   WeatherObscurationSand, WeatherObscurationHaze, WeatherObscurationSpray]

/-- The type `WeatherOtherPhen`, an `int`. -/
abbrev WeatherOtherPhen := Int

def WeatherOtherPhenNone : WeatherOtherPhen := 0
def WeatherOtherPhenWellDevelopedDustSandWhirls : WeatherOtherPhen := 1
def WeatherOtherPhenSqualls : WeatherOtherPhen := 2
def WeatherOtherPhenFunnelCloudTornadoWaterspout : WeatherOtherPhen := 3
def WeatherOtherPhenSandstorm : WeatherOtherPhen := 4
def WeatherOtherPhenDuststorm : WeatherOtherPhen := 5

/-- The constants of `WeatherOtherPhen`, in the order of their `const` block. -/
def weatherOtherPhenConsts : List WeatherOtherPhen :=
  [WeatherOtherPhenNone, WeatherOtherPhenWellDevelopedDustSandWhirls, WeatherOtherPhenSqualls,
   WeatherOtherPhenFunnelCloudTornadoWaterspout, WeatherOtherPhenSandstorm,
   WeatherOtherPhenDuststorm]

/-- The type `CloudType`, an `int`. -/
abbrev CloudType := Int

def CloudTypeNone : CloudType := 0
def CloudTypeToweringCumulus : CloudType := 1
def CloudTypeCumulonimbusOrashowerThunderstorm : CloudType := 2
def CloudTypeAltocumulusCastellanus : CloudType := 3

/-- The constants of `CloudType`, in the order of their `const` block. -/
def cloudTypeConsts : List CloudType :=
  [CloudTypeNone, CloudTypeToweringCumulus, CloudTypeCumulonimbusOrashowerThunderstorm,
   CloudTypeAltocumulusCastellanus]

/-- The member `Weather` of `Report`. -/
structure Weather where
  Descriptor : WeatherDescriptor
  Precipitation : WeatherPrecipitation
  Obscuration : WeatherObscuration
  Other : WeatherOtherPhen
  Vecinity : Bool
  deriving Repr, DecidableEq

/-- The `Weather` member of the zero value `Report{}`: every field at the zero
value of its type. -/
def Weather.zero : Weather :=
  { Descriptor := 0, Precipitation := 0, Obscuration := 0, Other := 0, Vecinity := false }

/-! ## Properties of the matcher -/

theorem consumed_append (pre rest : GoString) : consumed (pre ++ rest) rest = pre := by
  simp [consumed]

/-- Every result of the matcher has read a word of the pattern off the front of
the input. -/
theorem run_sound (r : Re) : ∀ (s t : MState), t ∈ Re.run r s →
    ∃ pre, s.rest = pre ++ t.rest ∧ Re.lang r pre := by
  induction r with
  | eps =>
    intro s t h
    simp only [Re.run, List.mem_singleton] at h
    subst h
    exact ⟨[], by simp, rfl⟩
  | lit c =>
    intro s t h
    simp only [Re.run] at h
    split at h
    · simp at h
    · rename_i x xs hx
      split at h
      · rename_i hxc
        simp only [List.mem_singleton] at h
        subst h
        exact ⟨[c], by simp [hx, hxc], rfl⟩
      · simp at h
  | digit =>
    intro s t h
    simp only [Re.run] at h
    split at h
    · simp at h
    · rename_i x xs hx
      split at h
      · rename_i hd
        simp only [List.mem_singleton] at h
        subst h
        exact ⟨[x], by simp [hx], x, hd, rfl⟩
      · simp at h
  | seq a b iha ihb =>
    intro s t h
    simp only [Re.run, List.mem_flatMap] at h
    obtain ⟨m, hm, ht⟩ := h
    obtain ⟨u, hu, hla⟩ := iha s m hm
    obtain ⟨v, hv, hlb⟩ := ihb m t ht
    exact ⟨u ++ v, by rw [hu, hv, List.append_assoc], u, v, rfl, hla, hlb⟩
  | alt a b iha ihb =>
    intro s t h
    simp only [Re.run, List.mem_append] at h
    rcases h with h | h
    · obtain ⟨u, hu, hl⟩ := iha s t h
      exact ⟨u, hu, Or.inl hl⟩
    · obtain ⟨u, hu, hl⟩ := ihb s t h
      exact ⟨u, hu, Or.inr hl⟩
  | opt a iha =>
    intro s t h
    simp only [Re.run, List.mem_append, List.mem_singleton] at h
    rcases h with h | h
    · obtain ⟨u, hu, hl⟩ := iha s t h
      exact ⟨u, hu, Or.inl hl⟩
    · subst h
      exact ⟨[], by simp, Or.inr rfl⟩
  | cap i a iha =>
    intro s t h
    simp only [Re.run, List.mem_map] at h
    obtain ⟨m, hm, ht⟩ := h
    obtain ⟨u, hu, hl⟩ := iha s m hm
    subst ht
    exact ⟨u, hu, hl⟩

/-- Matching never changes the number of submatch slots. -/
theorem run_caps_length (r : Re) : ∀ (s t : MState), t ∈ Re.run r s →
    t.caps.length = s.caps.length := by
  induction r with
  | eps =>
    intro s t h
    simp only [Re.run, List.mem_singleton] at h
    subst h
    rfl
  | lit c =>
    intro s t h
    simp only [Re.run] at h
    split at h
    · simp at h
    · split at h
      · simp only [List.mem_singleton] at h
        subst h
        rfl
      · simp at h
  | digit =>
    intro s t h
    simp only [Re.run] at h
    split at h
    · simp at h
    · split at h
      · simp only [List.mem_singleton] at h
        subst h
        rfl
      · simp at h
  | seq a b iha ihb =>
    intro s t h
    simp only [Re.run, List.mem_flatMap] at h
    obtain ⟨m, hm, ht⟩ := h
    rw [ihb m t ht, iha s m hm]
  | alt a b iha ihb =>
    intro s t h
    simp only [Re.run, List.mem_append] at h
    rcases h with h | h
    · exact iha s t h
    · exact ihb s t h
  | opt a iha =>
    intro s t h
    simp only [Re.run, List.mem_append, List.mem_singleton] at h
    rcases h with h | h
    · exact iha s t h
    · subst h
      rfl
  | cap i a iha =>
    intro s t h
    simp only [Re.run, List.mem_map] at h
    obtain ⟨m, hm, ht⟩ := h
    subst ht
    simp [iha s m hm]

/-- A submatch slot is only written by the group that carries its number. -/
theorem run_frame (r : Re) (j : Nat) (hj : j ∉ Re.groups r) : ∀ (s t : MState),
    t ∈ Re.run r s → t.caps[j]? = s.caps[j]? := by
  induction r with
  | eps =>
    intro s t h
    simp only [Re.run, List.mem_singleton] at h
    subst h
    rfl
  | lit c =>
    intro s t h
    simp only [Re.run] at h
    split at h
    · simp at h
    · split at h
      · simp only [List.mem_singleton] at h
        subst h
        rfl
      · simp at h
  | digit =>
    intro s t h
    simp only [Re.run] at h
    split at h
    · simp at h
    · split at h
      · simp only [List.mem_singleton] at h
        subst h
        rfl
      · simp at h
  | seq a b iha ihb =>
    intro s t h
    simp only [Re.groups, List.mem_append, not_or] at hj
    simp only [Re.run, List.mem_flatMap] at h
    obtain ⟨m, hm, ht⟩ := h
    rw [ihb hj.2 m t ht, iha hj.1 s m hm]
  | alt a b iha ihb =>
    intro s t h
    simp only [Re.groups, List.mem_append, not_or] at hj
    simp only [Re.run, List.mem_append] at h
    rcases h with h | h
    · exact iha hj.1 s t h
    · exact ihb hj.2 s t h
  | opt a iha =>
    intro s t h
    simp only [Re.groups] at hj
    simp only [Re.run, List.mem_append, List.mem_singleton] at h
    rcases h with h | h
    · exact iha hj s t h
    · subst h
      rfl
  | cap i a iha =>
    intro s t h
    simp only [Re.groups, List.mem_cons, not_or] at hj
    simp only [Re.run, List.mem_map] at h
    obtain ⟨m, hm, ht⟩ := h
    subst ht
    simp only
    rw [List.getElem?_set_ne (fun e => hj.1 e.symm)]
    exact iha hj.2 s m hm

/-- Every word of the pattern at the front of the input is found by the matcher. -/
theorem run_complete (r : Re) : ∀ (pre : GoString), Re.lang r pre →
    ∀ (s : MState) (rest : GoString), s.rest = pre ++ rest →
    ∃ t, t ∈ Re.run r s ∧ t.rest = rest := by
  induction r with
  | eps =>
    intro pre hl s rest hs
    simp only [Re.lang] at hl
    subst hl
    exact ⟨s, by simp [Re.run], by simpa using hs⟩
  | lit c =>
    intro pre hl s rest hs
    simp only [Re.lang] at hl
    subst hl
    refine ⟨{ s with rest := rest }, ?_, rfl⟩
    simp [Re.run, hs]
  | digit =>
    intro pre hl s rest hs
    simp only [Re.lang] at hl
    obtain ⟨x, hx, hp⟩ := hl
    subst hp
    refine ⟨{ s with rest := rest }, ?_, rfl⟩
    simp [Re.run, hs, hx]
  | seq a b iha ihb =>
    intro pre hl s rest hs
    simp only [Re.lang] at hl
    obtain ⟨u, v, hp, hu, hv⟩ := hl
    subst hp
    obtain ⟨m, hm, hmr⟩ := iha u hu s (v ++ rest) (by rw [hs, List.append_assoc])
    obtain ⟨t, ht, htr⟩ := ihb v hv m rest hmr
    exact ⟨t, by simp only [Re.run, List.mem_flatMap]; exact ⟨m, hm, ht⟩, htr⟩
  | alt a b iha ihb =>
    intro pre hl s rest hs
    simp only [Re.lang] at hl
    rcases hl with hl | hl
    · obtain ⟨t, ht, htr⟩ := iha pre hl s rest hs
      exact ⟨t, by simp only [Re.run, List.mem_append]; exact Or.inl ht, htr⟩
    · obtain ⟨t, ht, htr⟩ := ihb pre hl s rest hs
      exact ⟨t, by simp only [Re.run, List.mem_append]; exact Or.inr ht, htr⟩
  | opt a iha =>
    intro pre hl s rest hs
    simp only [Re.lang] at hl
    rcases hl with hl | hl
    · obtain ⟨t, ht, htr⟩ := iha pre hl s rest hs
      exact ⟨t, by simp only [Re.run, List.mem_append]; exact Or.inl ht, htr⟩
    · subst hl
      exact ⟨s, by simp [Re.run], by simpa using hs⟩
  | cap i a iha =>
    intro pre hl s rest hs
    simp only [Re.lang] at hl
    obtain ⟨t, ht, htr⟩ := iha pre hl s rest hs
    refine ⟨{ t with caps := t.caps.set i (consumed s.rest t.rest) }, ?_, htr⟩
    simp only [Re.run, List.mem_map]
    exact ⟨t, ht, rfl⟩

/-- A non-nil result of `FindStringSubmatch` is the submatch list of the first
result of the matcher at some offset of the input, and no word of the pattern
starts at an earlier offset: the match is the leftmost one. -/
theorem find_some (re : Re) (n : Nat) : ∀ (input : GoString),
    FindStringSubmatch re n input ≠ [] →
    ∃ pre suf t, input = pre ++ suf ∧
      (Re.run (Re.cap 0 re) { rest := suf, caps := List.replicate (n + 1) [] }).head? = some t ∧
      FindStringSubmatch re n input = t.caps ∧
      ∀ pre1 mid1 post1, input = pre1 ++ mid1 ++ post1 → Re.lang re mid1 →
        pre.length ≤ pre1.length := by
  intro input
  induction input with
  | nil =>
    intro h
    simp only [FindStringSubmatch, matchHere] at h ⊢
    cases hh : (Re.run (Re.cap 0 re) { rest := [], caps := List.replicate (n + 1) [] }).head? with
    | none => simp [hh] at h
    | some t => exact ⟨[], [], t, rfl, hh, by simp, fun _ _ _ _ _ => Nat.zero_le _⟩
  | cons c cs ih =>
    intro h
    simp only [FindStringSubmatch] at h ⊢
    cases hh : matchHere re n (c :: cs) with
    | none =>
      simp only [hh] at h ⊢
      obtain ⟨pre, suf, t, hp, ht, hf, hleft⟩ := ih h
      refine ⟨c :: pre, suf, t, by simp [hp], ht, hf, ?_⟩
      intro pre1 mid1 post1 hin hl
      cases pre1 with
      | nil =>
        exfalso
        obtain ⟨t1, ht1, _⟩ := run_complete (Re.cap 0 re) mid1 hl
          { rest := c :: cs, caps := List.replicate (n + 1) [] } post1 (by simpa using hin)
        simp only [matchHere, Option.map_eq_none', List.head?_eq_none_iff] at hh
        rw [hh] at ht1
        exact absurd ht1 (List.not_mem_nil t1)
      | cons c1 p1 =>
        simp only [List.cons_append, List.cons.injEq] at hin
        have := hleft p1 mid1 post1 hin.2 hl
        simp only [List.length_cons]
        omega
    | some m =>
      simp only [matchHere, Option.map_eq_some'] at hh
      obtain ⟨t, ht, htm⟩ := hh
      exact ⟨[], c :: cs, t, rfl, ht, by simp [htm], fun _ _ _ _ _ => Nat.zero_le _⟩

/-- When the pattern matches nowhere `FindStringSubmatch` is nil: no word of the
pattern starts at any offset of the input. -/
theorem find_nil_of_no_match (re : Re) (n : Nat) : ∀ (input : GoString),
    (∀ pre mid post, input = pre ++ mid ++ post → ¬ Re.lang re mid) →
    FindStringSubmatch re n input = [] := by
  intro input
  induction input with
  | nil =>
    intro h
    simp only [FindStringSubmatch, matchHere]
    cases hh : (Re.run (Re.cap 0 re) { rest := [], caps := List.replicate (n + 1) [] }).head? with
    | none => simp
    | some t =>
      exfalso
      obtain ⟨w, hw, hl⟩ := run_sound _ _ _ (List.mem_of_mem_head? hh)
      simp only at hw
      exact h [] w t.rest (by simpa using hw) hl
  | cons c cs ih =>
    intro h
    simp only [FindStringSubmatch]
    cases hh : matchHere re n (c :: cs) with
    | none =>
      simp only
      exact ih (fun pre mid post hp => h (c :: pre) mid post (by simp [hp]))
    | some m =>
      exfalso
      simp only [matchHere, Option.map_eq_some'] at hh
      obtain ⟨t, ht, _⟩ := hh
      obtain ⟨w, hw, hl⟩ := run_sound _ _ _ (List.mem_of_mem_head? ht)
      simp only at hw
      exact h [] w t.rest (by simpa using hw) hl

/-- A match anywhere in the input makes `FindStringSubmatch` non-nil. -/
theorem find_ne_nil_of_match (re : Re) (n : Nat) : ∀ (pre mid post : GoString),
    Re.lang re mid → FindStringSubmatch re n (pre ++ mid ++ post) ≠ [] := by
  intro pre
  induction pre with
  | nil =>
    intro mid post hl
    obtain ⟨t, ht, _⟩ := run_complete (Re.cap 0 re) mid hl
      { rest := mid ++ post, caps := List.replicate (n + 1) [] } post rfl
    have hne : Re.run (Re.cap 0 re) { rest := mid ++ post, caps := List.replicate (n + 1) [] }
        ≠ [] := List.ne_nil_of_mem ht
    obtain ⟨t0, ts, hts⟩ := List.exists_cons_of_ne_nil hne
    have hlen : t0.caps.length = n + 1 := by
      have := run_caps_length (Re.cap 0 re) _ t0 (by rw [hts]; exact List.mem_cons_self _ _)
      simpa using this
    have hfind : FindStringSubmatch re n (mid ++ post) = t0.caps := by
      cases hmp : mid ++ post with
      | nil =>
        rw [hmp] at hts
        simp [FindStringSubmatch, matchHere, hts]
      | cons c cs =>
        rw [hmp] at hts
        simp [FindStringSubmatch, matchHere, hts]
    simp only [List.nil_append]
    rw [hfind]
    intro h0
    rw [h0] at hlen
    simp at hlen
  | cons c cs ih =>
    intro mid post hl
    simp only [List.cons_append, FindStringSubmatch]
    cases hh : matchHere re n (c :: (cs ++ mid ++ post)) with
    | none =>
      simp only
      have := ih mid post hl
      simpa using this
    | some m =>
      simp only [matchHere, Option.map_eq_some'] at hh
      obtain ⟨t, ht, htm⟩ := hh
      have hlen := run_caps_length (Re.cap 0 re) _ t (List.mem_of_mem_head? ht)
      simp only [List.length_replicate] at hlen
      simp only
      intro h0
      rw [htm, h0] at hlen
      simp at hlen

/-! ## The wind pattern -/

theorem lang_str (l : List Char) : ∀ (w : GoString), Re.lang (Re.str l) w ↔ w = l := by
  induction l with
  | nil => intro w; simp [Re.str, Re.lang]
  | cons c cs ih =>
    intro w
    simp only [Re.str, Re.lang]
    constructor
    · rintro ⟨u, v, hw, hu, hv⟩
      rw [hw, hu, (ih v).1 hv]
      rfl
    · intro hw
      exact ⟨[c], cs, by simp [hw], rfl, (ih cs).2 rfl⟩

theorem lang_rep_digit (n : Nat) : ∀ (w : GoString),
    Re.lang (Re.rep n Re.digit) w ↔ isDigits n w := by
  induction n with
  | zero =>
    intro w
    simp only [Re.rep, Re.lang, isDigits]
    constructor
    · intro h
      subst h
      simp
    · intro h
      exact List.eq_nil_of_length_eq_zero h.1
  | succ n ih =>
    intro w
    simp only [Re.rep, Re.lang]
    constructor
    · rintro ⟨u, v, hw, ⟨x, hx, hu⟩, hv⟩
      obtain ⟨hlen, hall⟩ := (ih v).1 hv
      subst hw hu
      refine ⟨by simp [hlen], ?_⟩
      intro c hc
      simp only [List.singleton_append, List.mem_cons] at hc
      rcases hc with hc | hc
      · rw [hc]; exact hx
      · exact hall c hc
    · rintro ⟨hlen, hall⟩
      cases w with
      | nil => simp at hlen
      | cons x xs =>
        refine ⟨[x], xs, rfl, ⟨x, hall x (List.mem_cons_self _ _), rfl⟩, (ih xs).2 ⟨?_, ?_⟩⟩
        · simpa using hlen
        · intro c hc
          exact hall c (List.mem_cons_of_mem _ hc)

theorem lang_seq (a b : Re) (w : GoString) :
    Re.lang (Re.seq a b) w ↔ ∃ u v, w = u ++ v ∧ Re.lang a u ∧ Re.lang b v := Iff.rfl

theorem lang_alt (a b : Re) (w : GoString) :
    Re.lang (Re.alt a b) w ↔ (Re.lang a w ∨ Re.lang b w) := Iff.rfl

theorem lang_opt (a : Re) (w : GoString) :
    Re.lang (Re.opt a) w ↔ (Re.lang a w ∨ w = []) := Iff.rfl

theorem lang_cap (i : Nat) (a : Re) (w : GoString) :
    Re.lang (Re.cap i a) w ↔ Re.lang a w := Iff.rfl

theorem lang_lit (c : Char) (w : GoString) : Re.lang (Re.lit c) w ↔ w = [c] := Iff.rfl

theorem lang_sourceGroup (w : GoString) :
    Re.lang sourceGroup w ↔ (w = ['V', 'R', 'B'] ∨ isDigits 3 w) := by
  unfold sourceGroup
  rw [lang_cap, lang_alt, lang_str, lang_rep_digit]

theorem lang_gustGroup (w : GoString) :
    Re.lang gustGroup w ↔ ((∃ d, isDigits 2 d ∧ w = d ++ ['G']) ∨ w = []) := by
  unfold gustGroup
  rw [lang_opt, lang_cap, lang_seq]
  constructor
  · rintro (⟨u, v, hw, hu, hv⟩ | h)
    · exact Or.inl ⟨u, (lang_rep_digit 2 u).1 hu, by rw [hw, (lang_lit _ _).1 hv]⟩
    · exact Or.inr h
  · rintro (⟨d, hd, hw⟩ | h)
    · exact Or.inl ⟨d, ['G'], hw, (lang_rep_digit 2 d).2 hd, rfl⟩
    · exact Or.inr h

theorem lang_speedGroup (w : GoString) : Re.lang speedGroup w ↔ isDigits 2 w := by
  unfold speedGroup
  rw [lang_cap, lang_rep_digit]

theorem lang_unitGroup (w : GoString) :
    Re.lang unitGroup w ↔ (w = ['K', 'T'] ∨ w = ['M', 'P', 'S']) := by
  unfold unitGroup
  rw [lang_cap, lang_alt, lang_str, lang_str]

theorem lang_varianceGroup (w : GoString) :
    Re.lang varianceGroup w ↔
      ((∃ f t, isDigits 3 f ∧ isDigits 3 t ∧ w = ' ' :: (f ++ 'V' :: t)) ∨ w = []) := by
  unfold varianceGroup
  rw [lang_opt, lang_cap, lang_seq]
  constructor
  · rintro (⟨u, v, hw, hu, hv⟩ | h)
    · rw [lang_seq] at hv
      obtain ⟨f, v2, hv, hf, hv2⟩ := hv
      rw [lang_seq] at hv2
      obtain ⟨u3, t, hv2, hu3, ht⟩ := hv2
      refine Or.inl ⟨f, t, (lang_rep_digit 3 f).1 hf, (lang_rep_digit 3 t).1 ht, ?_⟩
      rw [hw, (lang_lit _ _).1 hu, hv, hv2, (lang_lit _ _).1 hu3]
      rfl
    · exact Or.inr h
  · rintro (⟨f, t, hf, ht, hw⟩ | h)
    · refine Or.inl ⟨[' '], f ++ 'V' :: t, by rw [hw]; rfl, rfl, ?_⟩
      rw [lang_seq]
      refine ⟨f, 'V' :: t, rfl, (lang_rep_digit 3 f).2 hf, ?_⟩
      rw [lang_seq]
      exact ⟨['V'], t, rfl, rfl, (lang_rep_digit 3 t).2 ht⟩
    · exact Or.inr h

/-- The wind pattern matches in full exactly the wind texts. -/
theorem lang_groupRegexp (w : GoString) : Re.lang groupRegexp w ↔ WindText w := by
  unfold groupRegexp WindText
  constructor
  · intro h
    rw [lang_seq] at h
    obtain ⟨src, r1, hw, hsrc, h⟩ := h
    rw [lang_seq] at h
    obtain ⟨g, r2, h1, hg, h⟩ := h
    rw [lang_seq] at h
    obtain ⟨sp, r3, h2, hsp, h⟩ := h
    rw [lang_seq] at h
    obtain ⟨un, va, h3, hun, hva⟩ := h
    exact ⟨src, g, sp, un, va, by rw [hw, h1, h2, h3], (lang_sourceGroup _).1 hsrc,
      (lang_gustGroup _).1 hg, (lang_speedGroup _).1 hsp, (lang_unitGroup _).1 hun,
      (lang_varianceGroup _).1 hva⟩
  · rintro ⟨src, g, sp, un, va, hw, hsrc, hg, hsp, hun, hva⟩
    rw [lang_seq]
    refine ⟨src, _, hw, (lang_sourceGroup _).2 hsrc, ?_⟩
    rw [lang_seq]
    refine ⟨g, _, rfl, (lang_gustGroup _).2 hg, ?_⟩
    rw [lang_seq]
    refine ⟨sp, _, rfl, (lang_speedGroup _).2 hsp, ?_⟩
    rw [lang_seq]
    exact ⟨un, va, rfl, (lang_unitGroup _).2 hun, (lang_varianceGroup _).2 hva⟩

/-! ## `Atoi` on the source capture -/

theorem digit_toNat_sub_le (c : Char) (h : c.isDigit = true) : c.toNat - 48 ≤ 9 := by
  simp only [Char.isDigit, Bool.and_eq_true, decide_eq_true_eq] at h
  have h2 : c.val.toNat ≤ 57 := h.2
  simp only [Char.toNat]
  omega

theorem digit_ne_minus (c : Char) (h : c.isDigit = true) : c ≠ '-' := by
  intro e
  subst e
  exact absurd h (by decide)

theorem digit_ne_plus (c : Char) (h : c.isDigit = true) : c ≠ '+' := by
  intro e
  subst e
  exact absurd h (by decide)

theorem Atoi_three_digits (a b c : Char) (ha : a.isDigit = true) (hb : b.isDigit = true)
    (hc : c.isDigit = true) :
    Atoi [a, b, c] = Except.ok (value3 a b c : Int) ∧ value3 a b c ≤ 999 := by
  have h1 := digit_toNat_sub_le a ha
  have h2 := digit_toNat_sub_le b hb
  have h3 := digit_toNat_sub_le c hc
  have hv : value3 a b c ≤ 999 := by
    simp only [value3]
    omega
  refine ⟨?_, hv⟩
  have hbody : stripSign [a, b, c] = [a, b, c] := by
    unfold stripSign
    split
    · rename_i t heq
      exact absurd (List.cons.inj heq).1 (digit_ne_minus a ha)
    · rename_i t heq
      exact absurd (List.cons.inj heq).1 (digit_ne_plus a ha)
    · rfl
  have hneg : hasMinus [a, b, c] = false := by
    unfold hasMinus
    split
    · rename_i t heq
      exact absurd (List.cons.inj heq).1 (digit_ne_minus a ha)
    · rfl
  have hdv : digitsValue [a, b, c] 0 = Except.ok (value3 a b c) := by
    have e1 : ¬ 2 ^ 64 ≤ a.toNat - 48 := by omega
    have e2 : ¬ 2 ^ 64 ≤ (a.toNat - 48) * 10 + (b.toNat - 48) := by omega
    have e3 : ¬ 2 ^ 64 ≤ ((a.toNat - 48) * 10 + (b.toNat - 48)) * 10 + (c.toNat - 48) := by
      omega
    simp only [digitsValue, ha, hb, hc, if_true, value3, Nat.zero_mul, Nat.zero_add]
    rw [if_neg e1, if_neg e2, if_neg e3]
  simp only [Atoi, hbody, hneg, hdv]
  have hlt : ¬ (((value3 a b c : Nat) : Int) < -(2 : Int) ^ 63 ∨
      (2 : Int) ^ 63 - 1 < ((value3 a b c : Nat) : Int)) := by
    omega
  simp only [List.cons_ne_nil, if_false, Bool.false_eq_true]
  rw [if_neg hlt]

/-- The errors of `Atoi`: a bad character is a syntax error, unless the digits
before it have already left the range. -/
theorem Atoi_errors :
    Atoi "12x".toList = Except.error NumError.ErrSyntax ∧
    Atoi [] = Except.error NumError.ErrSyntax ∧
    Atoi "-".toList = Except.error NumError.ErrSyntax ∧
    Atoi "99999999999999999999x".toList = Except.error NumError.ErrRange ∧
    Atoi "9223372036854775808".toList = Except.error NumError.ErrRange ∧
    Atoi "-9223372036854775808".toList = Except.ok (-9223372036854775808) :=
  ⟨rfl, rfl, rfl, rfl, rfl, rfl⟩

theorem isDigits_three (w : GoString) (h : isDigits 3 w) :
    ∃ a b c, w = [a, b, c] ∧ a.isDigit = true ∧ b.isDigit = true ∧ c.isDigit = true := by
  obtain ⟨hlen, hall⟩ := h
  match w, hlen, hall with
  | [a, b, c], _, hall =>
    exact ⟨a, b, c, rfl, hall a (by simp), hall b (by simp), hall c (by simp)⟩

/-! ## The submatches of the wind pattern -/

theorem mem_run_seq (a b : Re) (s t : MState) :
    t ∈ Re.run (Re.seq a b) s ↔ ∃ m, m ∈ Re.run a s ∧ t ∈ Re.run b m := by
  simp only [Re.run, List.mem_flatMap]

theorem mem_run_cap (i : Nat) (a : Re) (s t : MState) :
    t ∈ Re.run (Re.cap i a) s ↔
      ∃ m, m ∈ Re.run a s ∧ t = { m with caps := m.caps.set i (consumed s.rest m.rest) } := by
  simp only [Re.run, List.mem_map]
  constructor
  · rintro ⟨m, hm, h⟩
    exact ⟨m, hm, h.symm⟩
  · rintro ⟨m, hm, h⟩
    exact ⟨m, hm, h.symm⟩

theorem groupRegexp_eq : groupRegexp = Re.seq sourceGroup afterSource := rfl

/-- Submatches 0 and 1 of any match of the wind pattern: the whole match is a
wind text and starts with the source capture, which is `VRB` or three digits. -/
theorem run_groupRegexp (s t : MState) (hlen : s.caps.length = 8)
    (h : t ∈ Re.run (Re.cap 0 groupRegexp) s) :
    ∃ src mid, s.rest = (src ++ mid) ++ t.rest ∧ t.caps[0]? = some (src ++ mid) ∧
      t.caps[1]? = some src ∧ (src = ['V', 'R', 'B'] ∨ isDigits 3 src) ∧
      WindText (src ++ mid) := by
  rw [mem_run_cap] at h
  obtain ⟨t0, ht0, ht⟩ := h
  have hwhole := run_sound groupRegexp s t0 ht0
  rw [groupRegexp_eq, mem_run_seq] at ht0
  obtain ⟨t1, ht1, ht01⟩ := ht0
  have h1len := run_caps_length sourceGroup s t1 ht1
  have hsrc := ht1
  unfold sourceGroup at hsrc
  rw [mem_run_cap] at hsrc
  obtain ⟨u, hu, ht1eq⟩ := hsrc
  obtain ⟨src, hs, hlsrc⟩ := run_sound _ s u hu
  have hulen := run_caps_length _ s u hu
  have hcap1 : t1.caps[1]? = some src := by
    rw [ht1eq]
    simp only
    rw [hs, consumed_append, List.getElem?_set_self (by omega)]
  have hrest1 : t1.rest = u.rest := by rw [ht1eq]
  obtain ⟨mid, hm, hlmid⟩ := run_sound afterSource t1 t0 ht01
  have hframe := run_frame afterSource 1 (by decide) t1 t0 ht01
  have hs' : s.rest = (src ++ mid) ++ t0.rest := by
    rw [hs, ← hrest1, hm, List.append_assoc]
  have h0len : t0.caps.length = 8 := by
    rw [run_caps_length afterSource t1 t0 ht01, h1len, hlen]
  refine ⟨src, mid, ?_, ?_, ?_, ?_, ?_⟩
  · rw [ht]
    exact hs'
  · rw [ht]
    simp only
    rw [hs', consumed_append, List.getElem?_set_self (by omega)]
  · rw [ht]
    simp only
    rw [List.getElem?_set_ne (by decide), hframe, hcap1]
  · have := (lang_sourceGroup src).1 (by unfold sourceGroup; exact hlsrc)
    exact this
  · rw [← lang_groupRegexp, groupRegexp_eq, lang_seq]
    exact ⟨src, mid, rfl, by unfold sourceGroup; exact hlsrc, hlmid⟩

/-- A non-nil result of `FindStringSubmatch` on the wind pattern: the whole match
is a wind text lying inside the input, no wind text starts further left, and
submatch 1 is the source the whole match starts with. -/
theorem find_groupRegexp (input : GoString)
    (h : FindStringSubmatch groupRegexp numSubexp input ≠ []) :
    ∃ pre src mid post, input = pre ++ (src ++ mid) ++ post ∧
      (FindStringSubmatch groupRegexp numSubexp input)[0]? = some (src ++ mid) ∧
      (FindStringSubmatch groupRegexp numSubexp input)[1]? = some src ∧
      (src = ['V', 'R', 'B'] ∨ isDigits 3 src) ∧ WindText (src ++ mid) ∧
      ∀ pre1 mid1 post1, input = pre1 ++ mid1 ++ post1 → WindText mid1 →
        pre.length ≤ pre1.length := by
  obtain ⟨pre, suf, t, hin, hhead, hfind, hleft⟩ := find_some groupRegexp numSubexp input h
  obtain ⟨src, mid, hs, h0, h1, hsrc, hw⟩ :=
    run_groupRegexp _ t (by simp [numSubexp]) (List.mem_of_mem_head? hhead)
  simp only at hs
  refine ⟨pre, src, mid, t.rest, ?_, ?_, ?_, hsrc, hw, ?_⟩
  · rw [hin, hs]
    simp only [List.append_assoc]
  · rw [hfind]; exact h0
  · rw [hfind]; exact h1
  · intro pre1 mid1 post1 hin1 hw1
    exact hleft pre1 mid1 post1 hin1 ((lang_groupRegexp mid1).2 hw1)

/-- The three results a call of `Parse` can have, by the submatch list. -/
theorem Parse_cases (input : GoString) :
    (FindStringSubmatch groupRegexp numSubexp input = [] ∧ New.Parse input = Outcome.panicked) ∨
    ((FindStringSubmatch groupRegexp numSubexp input)[1]? = some ['V', 'R', 'B'] ∧
      New.Parse input = Outcome.returned { Group.zero with Variable := true, Source := 0 } none) ∨
    (∃ a b c, (FindStringSubmatch groupRegexp numSubexp input)[1]? = some [a, b, c] ∧
      a.isDigit = true ∧ b.isDigit = true ∧ c.isDigit = true ∧
      New.Parse input =
        Outcome.returned { Group.zero with Variable := false, Source := (value3 a b c : Int) }
          none) := by
  by_cases hnil : FindStringSubmatch groupRegexp numSubexp input = []
  · left
    refine ⟨hnil, ?_⟩
    simp [WParser.Parse, New, hnil]
  · right
    obtain ⟨pre, src, mid, post, _, _, h1, hsrc, _, _⟩ := find_groupRegexp input hnil
    rcases hsrc with hv | hd
    · left
      subst hv
      refine ⟨h1, ?_⟩
      simp [WParser.Parse, New, h1]
    · right
      obtain ⟨a, b, c, hw, ha, hb, hc⟩ := isDigits_three src hd
      subst hw
      refine ⟨a, b, c, h1, ha, hb, hc, ?_⟩
      have hne : ([a, b, c] : GoString) ≠ ['V', 'R', 'B'] := by
        intro e
        have : a = 'V' := (List.cons.inj e).1
        subst this
        exact absurd ha (by decide)
      have hat := (Atoi_three_digits a b c ha hb hc).1
      simp [WParser.Parse, New, h1, hne, hat]

/-- With no wind text anywhere in the input, `Parse` panics. -/
theorem Parse_panics_of_no_match (input : GoString)
    (h : ∀ pre mid post, input = pre ++ mid ++ post → ¬ WindText mid) :
    New.Parse input = Outcome.panicked := by
  have hnil := find_nil_of_no_match groupRegexp numSubexp input
    (fun pre mid post hin hl => h pre mid post hin ((lang_groupRegexp mid).1 hl))
  simp [WParser.Parse, New, hnil]

/-! ## The wind decoder: claims -/

/-- C1 (defect): on the group `24015KT` `Parse` succeeds and the decoded
direction re-renders as `240`, but the speed is never decoded: `Speed` is left at
0, which re-renders as `00` and not as the `15` that was written. -/
theorem C1_dddssKT_speed_not_recovered :
    ∃ g, New.Parse "24015KT".toList = Outcome.returned g none ∧
      zeroPad 3 g.Source.toNat = "240".toList ∧
      g.Speed.Speed = 0 ∧
      zeroPad 2 g.Speed.Speed.toNat = "00".toList ∧
      zeroPad 2 g.Speed.Speed.toNat ≠ "15".toList :=
  ⟨{ Group.zero with Variable := false, Source := 240 }, by decide, by decide, by decide,
    by decide, by decide⟩

/-- C2 (defect): on the group `24015G25KT` `Parse` returns source 240 with speed 0
and gust 0, not speed 15 and gust 25; the unit reads knots only because that is
the zero value. -/
theorem C2_gust_group_speed_and_gust_zero :
    New.Parse "24015G25KT".toList =
      Outcome.returned
        { Variable := false, Source := 240, VarianceFrom := 0, VarianceTo := 0,
          Speed := { Speed := 0, Unit := SpeedUnit.SpeedUnitKnots }, Gust := 0 } none := by
  decide

/-- C3 (defect): on the group `VRB05KT` `Parse` returns variable = true and
source 0, but speed 0 rather than 5. -/
theorem C3_VRB_speed_zero :
    New.Parse "VRB05KT".toList =
      Outcome.returned
        { Variable := true, Source := 0, VarianceFrom := 0, VarianceTo := 0,
          Speed := { Speed := 0, Unit := SpeedUnit.SpeedUnitKnots }, Gust := 0 } none := by
  decide

/-- C4 (defect): on the malformed group `24HKT` the pattern has no match, the
submatch list is nil, and `Parse` panics on `matches[1]` instead of returning an
error. -/
theorem C4_no_match_panics :
    FindStringSubmatch groupRegexp numSubexp "24HKT".toList = [] ∧
    New.Parse "24HKT".toList = Outcome.panicked := by
  decide

/-- C5: whenever the wind pattern has a match in the input (some substring is a
wind text), `Parse` returns a group with a nil error; the source capture is `VRB`
or exactly three decimal digits, on which `Atoi` cannot fail. -/
theorem C5_Parse_succeeds_on_match (input : GoString)
    (h : ∃ pre mid post, input = pre ++ mid ++ post ∧ WindText mid) :
    (∃ g, New.Parse input = Outcome.returned g none) ∧
    ∃ src, (FindStringSubmatch groupRegexp numSubexp input)[1]? = some src ∧
      (src = ['V', 'R', 'B'] ∨ (isDigits 3 src ∧ ∃ n, Atoi src = Except.ok n)) := by
  obtain ⟨pre, mid, post, hin, hw⟩ := h
  have hne : FindStringSubmatch groupRegexp numSubexp input ≠ [] := by
    rw [hin]
    exact find_ne_nil_of_match groupRegexp numSubexp pre mid post ((lang_groupRegexp mid).2 hw)
  rcases Parse_cases input with ⟨hnil, _⟩ | ⟨h1, hp⟩ | ⟨a, b, c, h1, ha, hb, hc, hp⟩
  · exact absurd hnil hne
  · exact ⟨⟨_, hp⟩, _, h1, Or.inl rfl⟩
  · refine ⟨⟨_, hp⟩, _, h1, Or.inr ⟨⟨rfl, ?_⟩, _, (Atoi_three_digits a b c ha hb hc).1⟩⟩
    intro x hx
    simp only [List.mem_cons, List.mem_singleton, List.not_mem_nil, or_false] at hx
    rcases hx with hx | hx | hx
    · rw [hx]; exact ha
    · rw [hx]; exact hb
    · rw [hx]; exact hc

/-- C5 at the input `XX24015KTYY`, which holds the wind text `24015KT`. -/
theorem C5_Parse_succeeds_on_match_witness :
    (∃ pre mid post, "XX24015KTYY".toList = pre ++ mid ++ post ∧ WindText mid) ∧
    ((∃ g, New.Parse "XX24015KTYY".toList = Outcome.returned g none) ∧
    ∃ src, (FindStringSubmatch groupRegexp numSubexp "XX24015KTYY".toList)[1]? = some src ∧
      (src = ['V', 'R', 'B'] ∨ (isDigits 3 src ∧ ∃ n, Atoi src = Except.ok n))) :=
  have hyp : ∃ pre mid post, "XX24015KTYY".toList = pre ++ mid ++ post ∧ WindText mid :=
    ⟨"XX".toList, "24015KT".toList, "YY".toList, by decide,
      "240".toList, [], "15".toList, "KT".toList, [], by decide,
      Or.inr ⟨by decide, by decide⟩, Or.inr rfl, ⟨by decide, by decide⟩, Or.inl (by decide),
      Or.inr rfl⟩
  ⟨hyp, C5_Parse_succeeds_on_match _ hyp⟩

/-- C6: whenever `Parse` succeeds, `Variable` is true exactly when the matched
source text is `VRB`; when it is true `Source` is 0, and when it is false the
source text is three digits and `Source` is their value. -/
theorem C6_variable_excludes_source (input : GoString) (g : Group)
    (h : New.Parse input = Outcome.returned g none) :
    ∃ src, (FindStringSubmatch groupRegexp numSubexp input)[1]? = some src ∧
      (g.Variable = true ↔ src = ['V', 'R', 'B']) ∧
      (g.Variable = true → g.Source = 0) ∧
      (g.Variable = false → isDigits 3 src ∧ Atoi src = Except.ok g.Source) := by
  rcases Parse_cases input with ⟨_, hp⟩ | ⟨h1, hp⟩ | ⟨a, b, c, h1, ha, hb, hc, hp⟩
  · rw [hp] at h
    exact absurd h (by simp)
  · rw [hp] at h
    simp only [Outcome.returned.injEq, and_true] at h
    subst h
    exact ⟨_, h1, by simp, by simp, by simp⟩
  · rw [hp] at h
    simp only [Outcome.returned.injEq, and_true] at h
    subst h
    refine ⟨_, h1, ?_, by simp, ?_⟩
    · simp only [Bool.false_eq_true, false_iff]
      intro e
      have : a = 'V' := (List.cons.inj e).1
      subst this
      exact absurd ha (by decide)
    · intro _
      refine ⟨⟨rfl, ?_⟩, (Atoi_three_digits a b c ha hb hc).1⟩
      intro x hx
      simp only [List.mem_cons, List.mem_singleton, List.not_mem_nil, or_false] at hx
      rcases hx with hx | hx | hx
      · rw [hx]; exact ha
      · rw [hx]; exact hb
      · rw [hx]; exact hc

/-- C6 at the input `VRB05KT`. -/
theorem C6_variable_excludes_source_witness :
    New.Parse "VRB05KT".toList =
      Outcome.returned { Group.zero with Variable := true, Source := 0 } none ∧
    ∃ src, (FindStringSubmatch groupRegexp numSubexp "VRB05KT".toList)[1]? = some src ∧
      (({ Group.zero with Variable := true, Source := 0 } : Group).Variable = true ↔
        src = ['V', 'R', 'B']) ∧
      (({ Group.zero with Variable := true, Source := 0 } : Group).Variable = true →
        ({ Group.zero with Variable := true, Source := 0 } : Group).Source = 0) ∧
      (({ Group.zero with Variable := true, Source := 0 } : Group).Variable = false →
        isDigits 3 src ∧
        Atoi src = Except.ok ({ Group.zero with Variable := true, Source := 0 } : Group).Source) :=
  ⟨by decide, C6_variable_excludes_source "VRB05KT".toList _ (by decide)⟩

/-- C7 (counterexample): the input `XX24015KTYY` is not a wind text, yet `Parse`
succeeds on it and decodes source 240: the pattern is not anchored. -/
theorem C7_unanchored_counterexample :
    New.Parse "XX24015KTYY".toList =
      Outcome.returned { Group.zero with Variable := false, Source := 240 } none ∧
    ¬ WindText "XX24015KTYY".toList := by
  refine ⟨by decide, ?_⟩
  intro h
  obtain ⟨t, ht, _⟩ := run_complete groupRegexp _ ((lang_groupRegexp _).2 h)
    { rest := "XX24015KTYY".toList, caps := [] } [] (by simp)
  have hrun : Re.run groupRegexp { rest := "XX24015KTYY".toList, caps := [] } = [] := by
    decide
  rw [hrun] at ht
  exact absurd ht (List.not_mem_nil t)

/-- C7 (amended): whenever `Parse` succeeds, some substring of the input, the
whole match reported as submatch 0, is a wind text (a wind group, optionally
followed by one space and a `dddVddd` group), and it is the leftmost one; what
stands before and after it in the input is not looked at. -/
theorem C7_match_is_substring (input : GoString) (g : Group)
    (h : New.Parse input = Outcome.returned g none) :
    ∃ pre mid post, input = pre ++ mid ++ post ∧ WindText mid ∧
      (FindStringSubmatch groupRegexp numSubexp input)[0]? = some mid ∧
      ∀ pre1 mid1 post1, input = pre1 ++ mid1 ++ post1 → WindText mid1 →
        pre.length ≤ pre1.length := by
  have hne : FindStringSubmatch groupRegexp numSubexp input ≠ [] := by
    intro hnil
    rcases Parse_cases input with ⟨_, hp⟩ | ⟨h1, _⟩ | ⟨a, b, c, h1, _⟩
    · rw [hp] at h
      exact absurd h (by simp)
    · rw [hnil] at h1
      exact absurd h1 (by simp)
    · rw [hnil] at h1
      exact absurd h1 (by simp)
  obtain ⟨pre, src, mid, post, hin, h0, _, _, hw, hleft⟩ := find_groupRegexp input hne
  exact ⟨pre, src ++ mid, post, hin, hw, h0, hleft⟩

/-- C7 (amended), at the input `XX24015KTYY`. -/
theorem C7_match_is_substring_witness :
    New.Parse "XX24015KTYY".toList =
      Outcome.returned { Group.zero with Variable := false, Source := 240 } none ∧
    ∃ pre mid post, "XX24015KTYY".toList = pre ++ mid ++ post ∧ WindText mid ∧
      (FindStringSubmatch groupRegexp numSubexp "XX24015KTYY".toList)[0]? = some mid ∧
      ∀ pre1 mid1 post1, "XX24015KTYY".toList = pre1 ++ mid1 ++ post1 → WindText mid1 →
        pre.length ≤ pre1.length :=
  ⟨by decide, C7_match_is_substring "XX24015KTYY".toList
    { Group.zero with Variable := false, Source := 240 } (by decide)⟩

/-- C8 (defect): on `24015KT 210V270` the pattern matches the second group and
captures `210` and `270`, but `Parse` reports no variance range: `VarianceFrom`
and `VarianceTo` are left at 0. -/
theorem C8_variance_not_reported :
    (FindStringSubmatch groupRegexp numSubexp "24015KT 210V270".toList)[0]? =
      some "24015KT 210V270".toList ∧
    (FindStringSubmatch groupRegexp numSubexp "24015KT 210V270".toList)[6]? =
      some "210".toList ∧
    (FindStringSubmatch groupRegexp numSubexp "24015KT 210V270".toList)[7]? =
      some "270".toList ∧
    New.Parse "24015KT 210V270".toList =
      Outcome.returned
        { Variable := false, Source := 240, VarianceFrom := 0, VarianceTo := 0,
          Speed := { Speed := 0, Unit := SpeedUnit.SpeedUnitKnots }, Gust := 0 } none := by
  decide

/-! ## The visibility decoder: claims -/

namespace Visibility

theorem isFourDigits_iff (w : GoString) : isFourDigits w = true ↔ isDigits 4 w := by
  simp [isFourDigits, isDigits]

theorem isFourDigits_suffixSM (body : GoString) :
    isFourDigits (body ++ ['S', 'M']) = false := by
  cases hb : isFourDigits (body ++ ['S', 'M']) with
  | false => rfl
  | true =>
    exfalso
    have hd := ((isFourDigits_iff _).1 hb).2 'M' (by simp)
    exact absurd hd (by decide)

theorem hasSuffixSM_append (body : GoString) : hasSuffixSM (body ++ ['S', 'M']) = true := by
  simp [hasSuffixSM]

theorem trimSuffixSM_append (body : GoString) : trimSuffixSM (body ++ ['S', 'M']) = body := by
  simp [trimSuffixSM]

theorem stripModifier_of_head (dist : GoString) (hM : dist.head? ≠ some 'M')
    (hP : dist.head? ≠ some 'P') : stripModifier dist = dist := by
  unfold stripModifier
  split
  · exact absurd rfl hM
  · exact absurd rfl hP
  · rfl

/-- The cases of `TestParserDistance`. -/
theorem TestParserDistance :
    Parse "10SM".toList =
      Except.ok
        { Distance := "10".toList, Unit := VisibilityUnit.UnitStatuteMiles,
          Modifier := VisibilityModifier.VisibilityModifierExactly } ∧
    Parse "M1/4SM".toList =
      Except.ok
        { Distance := "1/4".toList, Unit := VisibilityUnit.UnitStatuteMiles,
          Modifier := VisibilityModifier.VisibilityModifierOrLess } ∧
    Parse "9999".toList =
      Except.ok
        { Distance := "9999".toList, Unit := VisibilityUnit.UnitMeters,
          Modifier := VisibilityModifier.VisibilityModifierExactly } :=
  ⟨rfl, rfl, rfl⟩

/-- C9: for every visibility group, `Parse` returns no error and the distance
is the distance text as written: the four digits themselves, or the text between
an optional leading `M` or `P` and the suffix `SM`, a fraction left as text. -/
theorem C9_distance_text_preserved (input dist : GoString) (h : Written input dist) :
    ∃ g, Parse input = Except.ok g ∧ g.Distance = dist := by
  rcases h with ⟨h4, hd⟩ | ⟨m, hm, hM, hP, hin⟩
  · subst hd
    have hf := (isFourDigits_iff dist).2 h4
    exact ⟨{ Distance := dist, Unit := VisibilityUnit.UnitMeters,
             Modifier := VisibilityModifier.VisibilityModifierExactly },
      by simp only [Parse, hf, if_true], rfl⟩
  · have hin2 : input = (m ++ dist) ++ ['S', 'M'] := hin
    have hf : isFourDigits input = false := by rw [hin2]; exact isFourDigits_suffixSM _
    have hs : hasSuffixSM input = true := by rw [hin2]; exact hasSuffixSM_append _
    have ht : trimSuffixSM input = m ++ dist := by rw [hin2]; exact trimSuffixSM_append _
    have hstrip : stripModifier (m ++ dist) = dist := by
      rcases hm with hm | hm | hm
      · subst hm
        exact stripModifier_of_head dist hM hP
      · subst hm
        rfl
      · subst hm
        rfl
    refine ⟨{ Distance := stripModifier (trimSuffixSM input),
              Unit := VisibilityUnit.UnitStatuteMiles, Modifier := modifierOf input }, ?_, ?_⟩
    · simp only [Parse, hf, hs, Bool.false_eq_true, if_false, if_true]
    · simp only [ht, hstrip]

/-- C9 at the group `M1/4SM`, written with the distance text `1/4`. -/
theorem C9_distance_text_preserved_witness :
    Written "M1/4SM".toList "1/4".toList ∧
    ∃ g, Parse "M1/4SM".toList = Except.ok g ∧ g.Distance = "1/4".toList :=
  have hyp : Written "M1/4SM".toList "1/4".toList :=
    Or.inr ⟨['M'], Or.inr (Or.inl rfl), by decide, by decide, by decide⟩
  ⟨hyp, C9_distance_text_preserved _ _ hyp⟩

theorem hasSuffixSM_iff (w : GoString) :
    hasSuffixSM w = true ↔ ∃ body, w = body ++ ['S', 'M'] := by
  simp only [hasSuffixSM, List.isSuffixOf_iff_suffix]
  constructor
  · rintro ⟨body, hb⟩
    exact ⟨body, hb.symm⟩
  · rintro ⟨body, hb⟩
    exact ⟨body, hb.symm⟩

/-- C10: `Parse` accepts every group of exactly four decimal digits, with unit
meters, and every group ending in `SM`, with unit statute miles; it accepts no
other group, so the unit of an accepted group is fixed by which of the two
shapes the group has. -/
theorem C10_unit_by_shape (input : GoString) :
    (isDigits 4 input →
      ∃ g, Parse input = Except.ok g ∧ g.Unit = VisibilityUnit.UnitMeters) ∧
    ((∃ body, input = body ++ ['S', 'M']) →
      ∃ g, Parse input = Except.ok g ∧ g.Unit = VisibilityUnit.UnitStatuteMiles) ∧
    (∀ g, Parse input = Except.ok g →
      (isDigits 4 input ∧ g.Unit = VisibilityUnit.UnitMeters) ∨
      ((∃ body, input = body ++ ['S', 'M']) ∧ g.Unit = VisibilityUnit.UnitStatuteMiles)) := by
  refine ⟨?_, ?_, ?_⟩
  · intro h4
    have hf := (isFourDigits_iff input).2 h4
    exact ⟨{ Distance := input, Unit := VisibilityUnit.UnitMeters,
             Modifier := VisibilityModifier.VisibilityModifierExactly },
      by simp only [Parse, hf, if_true], rfl⟩
  · rintro ⟨body, hb⟩
    have hf : isFourDigits input = false := by rw [hb]; exact isFourDigits_suffixSM body
    have hs : hasSuffixSM input = true := by rw [hb]; exact hasSuffixSM_append body
    exact ⟨{ Distance := stripModifier (trimSuffixSM input),
             Unit := VisibilityUnit.UnitStatuteMiles, Modifier := modifierOf input },
      by simp only [Parse, hf, hs, Bool.false_eq_true, if_false, if_true], rfl⟩
  · intro g h
    unfold Parse at h
    by_cases hf : isFourDigits input = true
    · simp only [hf, if_true, Except.ok.injEq] at h
      subst h
      exact Or.inl ⟨(isFourDigits_iff input).1 hf, rfl⟩
    · have hf2 : isFourDigits input = false := by simpa using hf
      simp only [hf2, Bool.false_eq_true, if_false] at h
      by_cases hs : hasSuffixSM input = true
      · simp only [hs, if_true, Except.ok.injEq] at h
        subst h
        exact Or.inr ⟨(hasSuffixSM_iff input).1 hs, rfl⟩
      · have hs2 : hasSuffixSM input = false := by simpa using hs
        simp only [hs2, Bool.false_eq_true, if_false] at h
        exact absurd h (by simp)

/-- C10 at the groups `9999`, decoded in meters, and `10SM`, decoded in statute
miles. -/
theorem C10_unit_by_shape_witness :
    (isDigits 4 "9999".toList ∧
      ∃ g, Parse "9999".toList = Except.ok g ∧ g.Unit = VisibilityUnit.UnitMeters) ∧
    ((∃ body, "10SM".toList = body ++ ['S', 'M']) ∧
      ∃ g, Parse "10SM".toList = Except.ok g ∧ g.Unit = VisibilityUnit.UnitStatuteMiles) :=
  have h4 : isDigits 4 "9999".toList := ⟨by decide, by decide⟩
  have hsm : ∃ body, "10SM".toList = body ++ ['S', 'M'] := ⟨"10".toList, by decide⟩
  ⟨⟨h4, (C10_unit_by_shape "9999".toList).1 h4⟩,
    ⟨hsm, (C10_unit_by_shape "10SM".toList).2.1 hsm⟩⟩

end Visibility

/-! ## Calls, captures, source range and enumerations: claims -/

/-- No call changes `groupRegexps`, and every parser allocated holds the wind
pattern. -/
theorem runCalls_invariant : ∀ (history : List Call) (st : Prog),
    st.groupRegexps = groupRegexp → (∀ p ∈ st.parsers, p = New) →
    (runCalls history st).groupRegexps = groupRegexp ∧
    ∀ p ∈ (runCalls history st).parsers, p = New := by
  intro history
  induction history with
  | nil =>
    intro st hg hp
    exact ⟨hg, hp⟩
  | cons c later ih =>
    intro st hg hp
    simp only [runCalls]
    apply ih
    · cases c with
      | new => exact hg
      | parse w input =>
        simp only [Call.exec, ParseCall]
        split <;> exact hg
    · cases c with
      | new =>
        intro p hmem
        simp only [Call.exec, NewCall, List.mem_append, List.mem_singleton] at hmem
        rcases hmem with hmem | hmem
        · exact hp p hmem
        · rw [hmem, hg]
          rfl
      | parse w input =>
        intro p hmem
        simp only [Call.exec, ParseCall] at hmem
        split at hmem <;> exact hp p hmem

/-- C11: `Parse` is deterministic and independent of the parser instance and of
the calls made before.  After any two histories of calls of `New` and `Parse`
from program start, on any two parsers that `New` has returned, `Parse` on the
same input has the same outcome (the same group and error, or a panic in both):
the outcome of `Parse` on the wind pattern; and the call changes nothing in the
program state. -/
theorem C11_Parse_independent_of_history (history1 history2 : List Call) (w1 w2 : Nat)
    (input : GoString)
    (h1 : w1 < (runCalls history1 Prog.init).parsers.length)
    (h2 : w2 < (runCalls history2 Prog.init).parsers.length) :
    (ParseCall w1 input (runCalls history1 Prog.init)).1 =
      (ParseCall w2 input (runCalls history2 Prog.init)).1 ∧
    (ParseCall w1 input (runCalls history1 Prog.init)).1 = New.Parse input ∧
    (ParseCall w1 input (runCalls history1 Prog.init)).2 = runCalls history1 Prog.init := by
  have key : ∀ (history : List Call) (w : Nat),
      w < (runCalls history Prog.init).parsers.length →
      ParseCall w input (runCalls history Prog.init) =
        (New.Parse input, runCalls history Prog.init) := by
    intro history w hw
    have hinv := (runCalls_invariant history Prog.init rfl (by simp [Prog.init])).2
    have hget : (runCalls history Prog.init).parsers[w]? =
        some ((runCalls history Prog.init).parsers[w]) := List.getElem?_eq_getElem hw
    have hnew : (runCalls history Prog.init).parsers[w] = New :=
      hinv _ (List.getElem_mem hw)
    simp only [ParseCall, hget, hnew]
  rw [key history1 w1 h1, key history2 w2 h2]
  exact ⟨rfl, rfl, rfl⟩

/-- C11 with two histories: one call of `New`; and `New`, a `Parse` that panics,
`New` again and a `Parse` on the second parser. -/
theorem C11_Parse_independent_of_history_witness :
    (0 < (runCalls [Call.new] Prog.init).parsers.length ∧
      1 < (runCalls [Call.new, Call.parse 0 "24HKT".toList, Call.new,
        Call.parse 1 "VRB05KT".toList] Prog.init).parsers.length) ∧
    ((ParseCall 0 "24015KT".toList (runCalls [Call.new] Prog.init)).1 =
      (ParseCall 1 "24015KT".toList (runCalls [Call.new, Call.parse 0 "24HKT".toList,
        Call.new, Call.parse 1 "VRB05KT".toList] Prog.init)).1 ∧
    (ParseCall 0 "24015KT".toList (runCalls [Call.new] Prog.init)).1 =
      New.Parse "24015KT".toList ∧
    (ParseCall 0 "24015KT".toList (runCalls [Call.new] Prog.init)).2 =
      runCalls [Call.new] Prog.init) :=
  ⟨⟨by decide, by decide⟩,
    C11_Parse_independent_of_history [Call.new]
      [Call.new, Call.parse 0 "24HKT".toList, Call.new, Call.parse 1 "VRB05KT".toList]
      0 1 "24015KT".toList (by decide) (by decide)⟩

theorem digit_ne_V (c : Char) (h : c.isDigit = true) : c ≠ 'V' := by
  intro e
  subst e
  exact absurd h (by decide)

/-- On every group `dddssGggUU` the capture named `gust` is bound to `ssG` and the
capture named `speed` to `gg`. -/
theorem captures_of_gust_group (d1 d2 d3 s1 s2 g1 g2 : Char) (un : GoString)
    (h1 : d1.isDigit = true) (h2 : d2.isDigit = true) (h3 : d3.isDigit = true)
    (h4 : s1.isDigit = true) (h5 : s2.isDigit = true)
    (h6 : g1.isDigit = true) (h7 : g2.isDigit = true)
    (hu : un = ['K', 'T'] ∨ un = ['M', 'P', 'S']) :
    namedCapture Subexp.gust ([d1, d2, d3, s1, s2, 'G', g1, g2] ++ un) = some [s1, s2, 'G'] ∧
    namedCapture Subexp.speed ([d1, d2, d3, s1, s2, 'G', g1, g2] ++ un) = some [g1, g2] := by
  have hV := digit_ne_V d1 h1
  rcases hu with hu | hu <;> subst hu <;>
    simp [namedCapture, Subexp.index, FindStringSubmatch, matchHere, numSubexp, groupRegexp,
      sourceGroup, gustGroup, speedGroup, unitGroup, varianceGroup, Re.run, Re.rep, Re.str,
      consumed, h1, h2, h3, h4, h5, h6, h7, hV]

/-- On every group `dddssKT` `Parse` returns the value of `ddd` as the source and
leaves every other field, the speed included, at its zero value. -/
theorem Parse_of_plain_group (d1 d2 d3 s1 s2 : Char)
    (h1 : d1.isDigit = true) (h2 : d2.isDigit = true) (h3 : d3.isDigit = true)
    (h4 : s1.isDigit = true) (h5 : s2.isDigit = true) :
    New.Parse [d1, d2, d3, s1, s2, 'K', 'T'] =
      Outcome.returned
        { Group.zero with Variable := false, Source := (value3 d1 d2 d3 : Int) } none := by
  have hV := digit_ne_V d1 h1
  have hsub : (FindStringSubmatch groupRegexp numSubexp [d1, d2, d3, s1, s2, 'K', 'T'])[1]? =
      some [d1, d2, d3] := by
    simp [FindStringSubmatch, matchHere, numSubexp, groupRegexp,
      sourceGroup, gustGroup, speedGroup, unitGroup, varianceGroup, Re.run, Re.rep, Re.str,
      consumed, h1, h2, h3, h4, h5, hV]
  have hne : ([d1, d2, d3] : GoString) ≠ ['V', 'R', 'B'] := by
    intro e
    exact hV (List.cons.inj e).1
  have hat := (Atoi_three_digits d1 d2 d3 h1 h2 h3).1
  simp [WParser.Parse, New, hsub, hne, hat]

/-- C12 (defect): on `24015G25KT` the capture named `gust` is bound to `15G`, the
mean-speed digits with the letter `G`, and the capture named `speed` to `25`, the
gust digits: not `speed` to `15` and `gust` to `25`. -/
theorem C12_speed_and_gust_captures_swapped :
    namedCapture Subexp.gust "24015G25KT".toList = some "15G".toList ∧
    namedCapture Subexp.speed "24015G25KT".toList = some "25".toList ∧
    namedCapture Subexp.speed "24015G25KT".toList ≠ some "15".toList ∧
    namedCapture Subexp.gust "24015G25KT".toList ≠ some "25".toList := by
  decide

/-- C13: whenever `Parse` succeeds, the leftmost match of the wind pattern
starts with `VRB`, and `Source` is 0, or with three digits, and `Source` is the
number `Atoi` reads from them; hence `0 ≤ Source ≤ 999`, with no check against
360. -/
theorem C13_source_is_value_of_first_three (input : GoString) (g : Group)
    (h : New.Parse input = Outcome.returned g none) :
    ∃ pre whole post, input = pre ++ whole ++ post ∧ WindText whole ∧
      (FindStringSubmatch groupRegexp numSubexp input)[0]? = some whole ∧
      (∀ pre1 mid1 post1, input = pre1 ++ mid1 ++ post1 → WindText mid1 →
        pre.length ≤ pre1.length) ∧
      (whole.take 3 = ['V', 'R', 'B'] ∨ isDigits 3 (whole.take 3)) ∧
      (whole.take 3 = ['V', 'R', 'B'] → g.Source = 0) ∧
      (isDigits 3 (whole.take 3) →
        Atoi (whole.take 3) = Except.ok g.Source ∧
        ∃ a b c, whole.take 3 = [a, b, c] ∧ g.Source = (value3 a b c : Int)) ∧
      0 ≤ g.Source ∧ g.Source ≤ 999 := by
  have hne : FindStringSubmatch groupRegexp numSubexp input ≠ [] := by
    intro hnil
    rcases Parse_cases input with ⟨_, hp⟩ | ⟨h1, _⟩ | ⟨a, b, c, h1, _⟩
    · rw [hp] at h
      exact absurd h (by simp)
    · rw [hnil] at h1
      exact absurd h1 (by simp)
    · rw [hnil] at h1
      exact absurd h1 (by simp)
  obtain ⟨pre, src, mid, post, hin, h0, h1, hsrc, hw, hleft⟩ := find_groupRegexp input hne
  have hlen3 : src.length = 3 := by
    rcases hsrc with hv | hd
    · rw [hv]; rfl
    · exact hd.1
  have htake : (src ++ mid).take 3 = src := List.take_left' hlen3
  refine ⟨pre, src ++ mid, post, hin, hw, h0, hleft, ?_⟩
  rw [htake]
  rcases Parse_cases input with ⟨_, hp⟩ | ⟨h1v, hp⟩ | ⟨a, b, c, h1d, ha, hb, hc, hp⟩
  · rw [hp] at h
    exact absurd h (by simp)
  · rw [hp] at h
    simp only [Outcome.returned.injEq, and_true] at h
    subst h
    have hs : src = ['V', 'R', 'B'] := by
      rw [h1] at h1v
      exact Option.some.inj h1v
    subst hs
    refine ⟨Or.inl rfl, fun _ => rfl, ?_, by decide, by decide⟩
    intro hd
    exact absurd (hd.2 'V' (by simp)) (by decide)
  · rw [hp] at h
    simp only [Outcome.returned.injEq, and_true] at h
    subst h
    have hs : src = [a, b, c] := by
      rw [h1] at h1d
      exact Option.some.inj h1d
    subst hs
    have hat := Atoi_three_digits a b c ha hb hc
    have hdig : isDigits 3 [a, b, c] := by
      refine ⟨rfl, ?_⟩
      intro x hx
      simp only [List.mem_cons, List.mem_singleton, List.not_mem_nil, or_false] at hx
      rcases hx with hx | hx | hx
      · rw [hx]; exact ha
      · rw [hx]; exact hb
      · rw [hx]; exact hc
    refine ⟨Or.inr hdig, ?_, fun _ => ⟨hat.1, a, b, c, rfl, rfl⟩, ?_, ?_⟩
    · intro e
      have : a = 'V' := (List.cons.inj e).1
      subst this
      exact absurd ha (by decide)
    · exact Int.ofNat_nonneg _
    · have := hat.2
      show ((value3 a b c : Nat) : Int) ≤ 999
      omega

/-- C13 at the input `99905KT`, decoded with source 999. -/
theorem C13_source_is_value_of_first_three_witness :
    New.Parse "99905KT".toList =
      Outcome.returned { Group.zero with Variable := false, Source := 999 } none ∧
    ∃ pre whole post, "99905KT".toList = pre ++ whole ++ post ∧ WindText whole ∧
      (FindStringSubmatch groupRegexp numSubexp "99905KT".toList)[0]? = some whole ∧
      (∀ pre1 mid1 post1, "99905KT".toList = pre1 ++ mid1 ++ post1 → WindText mid1 →
        pre.length ≤ pre1.length) ∧
      (whole.take 3 = ['V', 'R', 'B'] ∨ isDigits 3 (whole.take 3)) ∧
      (whole.take 3 = ['V', 'R', 'B'] →
        ({ Group.zero with Variable := false, Source := 999 } : Group).Source = 0) ∧
      (isDigits 3 (whole.take 3) →
        Atoi (whole.take 3) =
          Except.ok ({ Group.zero with Variable := false, Source := 999 } : Group).Source ∧
        ∃ a b c, whole.take 3 = [a, b, c] ∧
          ({ Group.zero with Variable := false, Source := 999 } : Group).Source =
            (value3 a b c : Int)) ∧
      0 ≤ ({ Group.zero with Variable := false, Source := 999 } : Group).Source ∧
      ({ Group.zero with Variable := false, Source := 999 } : Group).Source ≤ 999 :=
  ⟨by decide, C13_source_is_value_of_first_three "99905KT".toList
    { Group.zero with Variable := false, Source := 999 } (by decide)⟩

/-- C14: in `WeatherDescriptor`, `WeatherPrecipitation`, `WeatherObscuration`,
`WeatherOtherPhen` and `CloudType` the `None` constant is 0, the zero value; the
`Weather` member of a zero-valued `Report` therefore reads no descriptor, no
precipitation, no obscuration and no other phenomenon; and the constants of each
enumeration are pairwise distinct. -/
theorem C14_None_is_zero_and_constants_distinct :
    (WeatherDescriptorNone = 0 ∧ WeatherPrecipitationNone = 0 ∧ WeatherObscurationNone = 0 ∧
      WeatherOtherPhenNone = 0 ∧ CloudTypeNone = 0) ∧
    (Weather.zero.Descriptor = WeatherDescriptorNone ∧
      Weather.zero.Precipitation = WeatherPrecipitationNone ∧
      Weather.zero.Obscuration = WeatherObscurationNone ∧
      Weather.zero.Other = WeatherOtherPhenNone) ∧
    (weatherDescriptorConsts.Nodup ∧ weatherPrecipitationConsts.Nodup ∧
      weatherObscurationConsts.Nodup ∧ weatherOtherPhenConsts.Nodup ∧
      cloudTypeConsts.Nodup) := by
  decide

end Gometar
